import Mathlib

/-!
Verification development for the evidence-based appraisal engine.

The definitions below are a shallow embedding of the statistical core of the
repository: the sales loader/filter, period validator and trend estimator of
Market_Analysis.py, and the comparable-sales adjustment engine of
Adjustment_Analysis_.py.  Currency amounts, percentages and regression
quantities are modelled as rational numbers; calendar dates are modelled as
integer day numbers; a missing (NaN) value is modelled as an Option that is
none, and a float division whose result is not a finite meaningful number
(division by a zero living area) is likewise modelled as none.  The constant
30.44 from the sources is the exact rational 3044/100.
-/

namespace Appraisal

/-- One raw CSV row of the sales table, after column mapping: the parsed sale
date (none when the date string could not be parsed, the NaT case of
pd.to_datetime with errors coerce), the sale price, and the living area
(none when missing). -/
structure SaleRow where
  saleDate : Option ℤ
  salePrice : ℚ
  livingArea : Option ℚ
deriving DecidableEq

/-- One processed sale row, as written to sales_data_processed.csv: the
derived Price_Per_SF and Days_From_DOV columns of Market_Analysis.py. -/
structure ProcRow where
  saleDate : ℤ
  salePrice : ℚ
  livingArea : Option ℚ
  pricePerSF : Option ℚ
  daysFromDOV : ℤ
deriving DecidableEq

/-- Price divided by living area.  In the source this is a float division
that yields NaN for a missing area and an infinity for a zero area; both
non-finite outcomes are modelled as none. -/
def pricePerArea (price : ℚ) (area : Option ℚ) : Option ℚ :=
  match area with
  | none => none
  | some a => if a = 0 then none else some (price / a)

/-- Keep a raw row when its date parsed and is on or before the date of
value, enriching it with the derived metrics; rows with an unparseable date
compare false against the date of value and are dropped, exactly as the
filter df[Sale_Date <= DATE_OF_VALUE] drops NaT rows. -/
def keepEnrich (dov : ℤ) (r : SaleRow) : Option ProcRow :=
  match r.saleDate with
  | none => none
  | some d =>
      if d ≤ dov then
        some { saleDate := d, salePrice := r.salePrice, livingArea := r.livingArea,
               pricePerSF := pricePerArea r.salePrice r.livingArea,
               daysFromDOV := dov - d }
      else none

/-- Ordering of processed rows by sale date, the key of df.sort_values. -/
def rowLE (a b : ProcRow) : Prop := a.saleDate ≤ b.saleDate

instance : DecidableRel rowLE := fun a b =>
  inferInstanceAs (Decidable (a.saleDate ≤ b.saleDate))

instance : IsTotal ProcRow rowLE := ⟨fun a b => le_total a.saleDate b.saleDate⟩

instance : IsTrans ProcRow rowLE := ⟨fun _ _ _ h h2 => le_trans h h2⟩

/-- The loader/filter stage of Market_Analysis.py: parse and filter by the
date of value, compute Price_Per_SF and Days_From_DOV, sort by sale date. -/
def processSales (dov : ℤ) (rows : List SaleRow) : List ProcRow :=
  List.insertionSort rowLE (rows.filterMap (keepEnrich dov))

/-- Number of input rows whose date column failed to parse. -/
def droppedUnparseable (rows : List SaleRow) : ℕ :=
  (rows.filter (fun r => r.saleDate = none)).length

/-! ### Period validator (Market_Analysis.py, data coverage validation) -/

/-- The fixed ladder of candidate periods, the time_periods constant. -/
def ladderPeriods : List (String × ℕ) :=
  [("0-3 months", 3), ("4-6 months", 6), ("7-9 months", 9), ("9-12 months", 12),
   ("0-6 months", 6), ("0-12 months", 12), ("0-18 months", 18), ("0-24 months", 24),
   ("0-36 months", 36)]

/-- Cutoff date of a period: DATE_OF_VALUE minus int(months times 30.44) days;
the Python int() truncation of the nonnegative product is Nat division. -/
def periodCutoff (dov : ℤ) (months : ℕ) : ℤ :=
  dov - ((months * 3044) / 100 : ℕ)

/-- Number of processed sales with sale date on or after the cutoff. -/
def periodCount (dov : ℤ) (months : ℕ) (dates : List ℤ) : ℕ :=
  (dates.filter (fun d => periodCutoff dov months ≤ d)).length

/-- An accepted period, as appended to valid_periods. -/
structure ValidPeriod where
  name : String
  months : ℕ
  salesCount : ℕ
  cutoffDate : ℤ
deriving DecidableEq

/-- An omitted period, as appended to omitted_periods. -/
structure OmittedPeriod where
  name : String
  months : ℕ
  reason : String
  salesCount : ℕ
deriving DecidableEq

/-- Reason for a coverage omission.  The source interpolates the numeric
coverage into the message; the fixed text suffices here. -/
def coverageReason : String := "extends beyond data coverage"

/-- Reason for a duplicate-count omission, naming the previously accepted
period as in the source f-string. -/
def duplicateReason (prevName : String) : String :=
  "identical sales count to " ++ prevName

/-- One iteration of the period validation loop: first the coverage check
against actual coverage plus the one-month buffer, then the duplicate-count
check against the most recently accepted period, else accept. -/
def validateStep (dov : ℤ) (covMonths : ℚ) (dates : List ℤ)
    (st : List ValidPeriod × List OmittedPeriod) (p : String × ℕ) :
    List ValidPeriod × List OmittedPeriod :=
  let cutoff := periodCutoff dov p.2
  let cnt := periodCount dov p.2 dates
  if (p.2 : ℚ) > covMonths + 1 then
    (st.1, st.2 ++ [⟨p.1, p.2, coverageReason, cnt⟩])
  else
    match st.1.getLast? with
    | some lastV =>
        if cnt = lastV.salesCount then
          (st.1, st.2 ++ [⟨p.1, p.2, duplicateReason lastV.name, cnt⟩])
        else
          (st.1 ++ [⟨p.1, p.2, cnt, cutoff⟩], st.2)
    | none => (st.1 ++ [⟨p.1, p.2, cnt, cutoff⟩], st.2)

/-- The whole validation loop over the candidate ladder, in ladder order. -/
def validatePeriods (dov : ℤ) (covMonths : ℚ) (dates : List ℤ) :
    List ValidPeriod × List OmittedPeriod :=
  ladderPeriods.foldl (validateStep dov covMonths dates) ([], [])

/-! ### Trend estimator (Market_Analysis.py, trend analysis step) -/

/-- Minimum of a list of day numbers, zero on the empty list (the source
only takes the minimum of a nonempty column). -/
def listMinInt (l : List ℤ) : ℤ :=
  match l with
  | [] => 0
  | x :: xs => xs.foldl min x

/-- Ordinary least squares slope over a list of points, the scipy
linregress slope formula written over exact rationals. -/
def olsSlope (pts : List (ℚ × ℚ)) : ℚ :=
  let n : ℚ := pts.length
  let sx := (pts.map Prod.fst).sum
  let sy := (pts.map Prod.snd).sum
  let sxy := (pts.map (fun q => q.1 * q.2)).sum
  let sxx := (pts.map (fun q => q.1 * q.1)).sum
  (n * sxy - sx * sy) / (n * sxx - sx * sx)

/-- Ordinary least squares intercept: mean y minus slope times mean x. -/
def olsIntercept (pts : List (ℚ × ℚ)) : ℚ :=
  let n : ℚ := pts.length
  let sx := (pts.map Prod.fst).sum
  let sy := (pts.map Prod.snd).sum
  (sy - olsSlope pts * sx) / n

/-- Coefficient of determination of the least squares fit. -/
def olsR2 (pts : List (ℚ × ℚ)) : ℚ :=
  let n : ℚ := pts.length
  let sx := (pts.map Prod.fst).sum
  let sy := (pts.map Prod.snd).sum
  let sxy := (pts.map (fun q => q.1 * q.2)).sum
  let sxx := (pts.map (fun q => q.1 * q.1)).sum
  let syy := (pts.map (fun q => q.2 * q.2)).sum
  (n * sxy - sx * sy) * (n * sxy - sx * sy) /
    ((n * sxx - sx * sx) * (n * syy - sy * sy))

/-- Market trend determination of Market_Analysis.py, with the branches in
source order: daily change above 0.50, daily change below minus 0.50,
R squared below 0.3, otherwise stable. -/
def classifyTrend (dailyPriceChange rSquared : ℚ) : String :=
  if dailyPriceChange > 1/2 then "INCREASING"
  else if dailyPriceChange < -(1/2) then "DECREASING"
  else if rSquared < 3/10 then "UNSTABLE"
  else "STABLE"

/-- The trend variables as they stand at the end of the trend analysis step
and in the saved trend_results record. -/
structure TrendResults where
  slopePrice : ℚ
  interceptPrice : ℚ
  dailyPriceChange : ℚ
  monthlyPriceChangePct : ℚ
  slopePricesf : ℚ
  rSquared : ℚ
  marketTrend : String
deriving DecidableEq

/-- Trend analysis over the chosen trend window: with fewer than two usable
points every numeric field keeps its initialized zero and the label is the
insufficient-data label; otherwise regress price (and price per area, a NaN
price per area entering the float regression is modelled as zero) against
days elapsed since the earliest sale in the window. -/
def computeTrend (tdf : List ProcRow) : TrendResults :=
  if tdf.length < 2 then
    { slopePrice := 0, interceptPrice := 0, dailyPriceChange := 0,
      monthlyPriceChangePct := 0, slopePricesf := 0, rSquared := 0,
      marketTrend := "INSUFFICIENT DATA" }
  else
    let x0 := listMinInt (tdf.map (fun r => r.saleDate))
    let pts := tdf.map (fun r => (((r.saleDate - x0 : ℤ) : ℚ), r.salePrice))
    let ptsSF := tdf.map
      (fun r => (((r.saleDate - x0 : ℤ) : ℚ), (r.pricePerSF.getD 0)))
    let slope := olsSlope pts
    let r2 := olsR2 pts
    let daily := slope
    let monthly := slope * (3044/100) / ((pts.map Prod.snd).sum / pts.length) * 100
    { slopePrice := slope, interceptPrice := olsIntercept pts,
      dailyPriceChange := daily, monthlyPriceChangePct := monthly,
      slopePricesf := olsSlope ptsSF, rSquared := r2,
      marketTrend := classifyTrend daily r2 }

/-! ### Pipeline of Market_Analysis.py after column mapping -/

/-- The observable output of one Market_Analysis.py run: the processed
sales table and the validation_info record (message, period lists, trend).
In the degenerate empty branch the script writes only the message and an
empty table, so the period lists are empty and there is no trend record. -/
structure PipelineOutput where
  processed : List ProcRow
  message : Option String
  validPeriods : List ValidPeriod
  omittedPeriods : List OmittedPeriod
  trend : Option TrendResults
deriving DecidableEq

/-- The analysis pipeline: filter and enrich, branch on an empty result,
validate the period ladder against actual coverage, and run the trend
analysis on the 0-12 month window when that period was accepted, else on
the full processed set. -/
def runPipeline (dov : ℤ) (rows : List SaleRow) : PipelineOutput :=
  let p := processSales dov rows
  if p = [] then
    { processed := p, message := some "No sales on or before date of value",
      validPeriods := [], omittedPeriods := [], trend := none }
  else
    let dates := p.map (fun r => r.saleDate)
    let covDays : ℤ := dov - listMinInt dates
    let covMonths : ℚ := (covDays : ℚ) * 100 / 3044
    let vo := validatePeriods dov covMonths dates
    let tdf :=
      if (vo.1.map (fun v => v.name)).contains "0-12 months" then
        p.filter (fun r => periodCutoff dov 12 ≤ r.saleDate)
      else p
    { processed := p, message := none, validPeriods := vo.1,
      omittedPeriods := vo.2, trend := some (computeTrend tdf) }

/-! ### Adjustment engine (Adjustment_Analysis_.py) -/

/-- Configuration of the adjustment run: the values read from
validation_info.json plus the marginal value per area unit obtained from
the regression of price against living area. -/
structure AdjustConfig where
  dov : ℤ
  subjectLivingArea : ℚ
  timeThresholdDays : ℤ
  sfThresholdPct : ℚ
  dailyPriceChange : ℚ
  monthlyTrendPct : ℚ
  marginalValuePerSF : ℚ
deriving DecidableEq

/-- One adjusted comparable, the columns added by Adjustment_Analysis_.py. -/
structure AdjRecord where
  saleDate : ℤ
  salePrice : ℚ
  livingArea : Option ℚ
  daysDifference : ℤ
  timeAdjAmount : ℚ
  timeAdjPct : ℚ
  sfAdjAmount : ℚ
  sfAdjPct : ℚ
  netAdjAmount : ℚ
  netAdjPct : ℚ
  adjustedSalePrice : ℚ
  adjustedPricePerSF : Option ℚ
deriving DecidableEq

/-- Per-comparable adjustment: the time adjustment is applied only when the
absolute days difference strictly exceeds the threshold; the size
adjustment only when the absolute size difference percentage strictly
exceeds its threshold (a missing living area propagates NaN through the
difference, the NaN comparison is false, and the zeros written at
initialization remain); net amount, adjusted price and adjusted price per
area close the record. -/
def adjustComp (cfg : AdjustConfig) (r : ProcRow) : AdjRecord :=
  let daysDiff := cfg.dov - r.saleDate
  let timeAmt : ℚ :=
    if cfg.timeThresholdDays < |daysDiff| then cfg.dailyPriceChange * daysDiff else 0
  let timePct : ℚ :=
    if cfg.timeThresholdDays < |daysDiff| then
      cfg.monthlyTrendPct / (3044/100) * daysDiff
    else 0
  let sfPair : ℚ × ℚ :=
    match r.livingArea with
    | none => (0, 0)
    | some a =>
        let sfDiff := a - cfg.subjectLivingArea
        let sfDiffPct := sfDiff / cfg.subjectLivingArea * 100
        if cfg.sfThresholdPct < |sfDiffPct| then
          (-sfDiff * cfg.marginalValuePerSF, -(sfDiff / cfg.subjectLivingArea) * 100)
        else (0, 0)
  let netAmt := timeAmt + sfPair.1
  let adjPrice := r.salePrice + netAmt
  { saleDate := r.saleDate, salePrice := r.salePrice, livingArea := r.livingArea,
    daysDifference := daysDiff, timeAdjAmount := timeAmt, timeAdjPct := timePct,
    sfAdjAmount := sfPair.1, sfAdjPct := sfPair.2,
    netAdjAmount := netAmt, netAdjPct := timePct + sfPair.2,
    adjustedSalePrice := adjPrice,
    adjustedPricePerSF := pricePerArea adjPrice r.livingArea }

/-- The whole comparable set is adjusted record by record; no record is
dropped and no arithmetic step can abort the batch. -/
def adjustBatch (cfg : AdjustConfig) (rows : List ProcRow) : List AdjRecord :=
  rows.map (adjustComp cfg)

/-! ### Column mapper (Market_Analysis.py, header heuristics) -/

/-- Lower-casing over the character list, the Python lower method.  (The
library toLower is definitionally opaque to kernel evaluation, so the same
map is written structurally here.) -/
def lowerStr (s : String) : String := String.mk (s.data.map Char.toLower)

/-- Strip leading and trailing spaces, the Python strip method. -/
def trimStr (s : String) : String :=
  String.mk (((s.data.dropWhile (fun c => c = ' ')).reverse.dropWhile
    (fun c => c = ' ')).reverse)

/-- Leading-substring test, the Python startswith method. -/
def startsWithStr (s pre : String) : Bool := pre.data.isPrefixOf s.data

/-- Substring test, the Python in operator on strings. -/
def containsStr (hay needle : String) : Bool :=
  hay.data.tails.any (fun t => needle.data.isPrefixOf t)

/-- The heuristic header mapping: the elif chain over the lowercased column
name, first branch wins, none when no branch matches. -/
def canonOf (col : String) : Option String :=
  let low := lowerStr col
  if (containsStr low "price" && (containsStr low "close" || containsStr low "sale"))
      || trimStr low == "price" then some "Sale_Price"
  else if ((containsStr low "close" || containsStr low "sale") && containsStr low "date")
      || (trimStr low == "closedate" || trimStr low == "saledate") then some "Sale_Date"
  else if containsStr low "living" || containsStr low "gla" || containsStr low "sqft"
      || containsStr low "square" then some "Living_Area"
  else if containsStr low "bed" && !containsStr low "room" then some "Bedrooms"
  else if containsStr low "bath" then some "Bathrooms"
  else if containsStr low "street number" || containsStr low "street_number"
      || containsStr low "street no" then some "Street_Number"
  else if (containsStr low "street" && containsStr low "name")
      || (startsWithStr low "street" && !containsStr low "name" && containsStr low "st") then
    some "Street_Name"
  else if low == "dom" || containsStr low "days on market" || containsStr low "days active"
      || containsStr low "days_active" then some "DOM"
  else if containsStr low "cdom" || containsStr low "cumulative" then some "CDOM"
  else if containsStr low "garage" then some "Garage"
  else none

/-- Apply the rename map to a header list: a matched header is replaced by
its canonical name, an unmatched header keeps its original name. -/
def mapColumns (cols : List String) : List String :=
  cols.map (fun c => (canonOf c).getD c)

/-- The required_final list: every one of these canonical columns must be
present after the heuristic mapping or the script exits with an error. -/
def requiredFinal : List String :=
  ["Sale_Price", "Sale_Date", "Living_Area", "Bedrooms", "Bathrooms",
   "Street_Number", "Street_Name", "DOM", "CDOM", "Garage"]

/-- The canonical columns still missing after mapping; the script aborts
when this list is nonempty. -/
def missingFinal (cols : List String) : List String :=
  requiredFinal.filter (fun c => !(mapColumns cols).contains c)

/-! ### Concrete example inputs used by witnesses and counterexamples -/

/-- Sale dates of an example processed set with a date of value of day 1000:
three sales in the last three months, two more within six months, one more
within twelve, plus the earliest sale at day 650. -/
def exDates : List ℤ := [650, 700, 830, 840, 910, 920, 930]

/-- Actual coverage in months of the example set: 350 days over 30.44. -/
def exCovM : ℚ := ((350 : ℤ) : ℚ) * 100 / 3044

/-- Adjustment configuration of the examples: subject of 1000 area units, a
30-day time threshold, a 5 percent size threshold, a flat market and a
marginal value of 100 per area unit. -/
def exAdjCfg : AdjustConfig :=
  { dov := 0, subjectLivingArea := 1000, timeThresholdDays := 30,
    sfThresholdPct := 5, dailyPriceChange := 0, monthlyTrendPct := 0,
    marginalValuePerSF := 100 }

/-- A comparable whose living area is exactly zero. -/
def exZeroAreaRow : ProcRow :=
  { saleDate := 0, salePrice := 200000, livingArea := some 0,
    pricePerSF := none, daysFromDOV := 0 }

/-- A comparable whose living area is missing. -/
def exNoneAreaRow : ProcRow :=
  { saleDate := 0, salePrice := 150000, livingArea := none,
    pricePerSF := none, daysFromDOV := 0 }

/-- Adjustment configuration for the time-threshold scenario: date of value
at day 1000, threshold 30 days, an appreciating market. -/
def wCfg : AdjustConfig :=
  { dov := 1000, subjectLivingArea := 1000, timeThresholdDays := 30,
    sfThresholdPct := 5, dailyPriceChange := 7, monthlyTrendPct := 1,
    marginalValuePerSF := 100 }

/-- A comparable sold 60 days before the date of value. -/
def wComp60 : ProcRow :=
  { saleDate := 940, salePrice := 300000, livingArea := some 1000,
    pricePerSF := some 300, daysFromDOV := 60 }

/-- A comparable sold 5 days before the date of value. -/
def wComp5 : ProcRow :=
  { saleDate := 995, salePrice := 310000, livingArea := some 1000,
    pricePerSF := some 310, daysFromDOV := 5 }

/-- The first row of the example set after processing with date of value
100: price per area 10 and 90 days from the date of value. -/
def exProcW : ProcRow :=
  { saleDate := 10, salePrice := 100, livingArea := some 10,
    pricePerSF := some 10, daysFromDOV := 90 }

/-- Raw rows that all parse and fall before the date of value 100. -/
def exRowsGood : List SaleRow :=
  [{ saleDate := some 10, salePrice := 100, livingArea := some 10 },
   { saleDate := some 20, salePrice := 200, livingArea := some 20 },
   { saleDate := some 30, salePrice := 300, livingArea := some 30 }]

/-- The same rows followed by two rows whose dates failed to parse. -/
def exRowsBad : List SaleRow :=
  exRowsGood ++
    [{ saleDate := none, salePrice := 999, livingArea := some 1 },
     { saleDate := none, salePrice := 888, livingArea := none }]

/-- A single unparseable-date row, used by the C9 witness. -/
def exRowsOneBad : List SaleRow :=
  [{ saleDate := none, salePrice := 777, livingArea := some 2 }]

/-- The three headers that resolve exactly price, date and living area. -/
def exThreeHeaders : List String := ["Sale Price", "Close Date", "Living Area"]

/-- A header set resolving all ten required canonical columns. -/
def exTenHeaders : List String :=
  ["Close Price", "Close Date", "GLA", "Beds", "Bathrooms Full",
   "Street Number", "Street Name And Nr", "DOM", "CDOM", "Garage Spaces"]


/-- The ladder key of an accepted period: its label and month count. -/
def vpKey (x : ValidPeriod) : String × ℕ := (x.name, x.months)

/-- The ladder key of an omitted period: its label and month count. -/
def opKey (x : OmittedPeriod) : String × ℕ := (x.name, x.months)

/-- C1: for every comparable processed by the adjustment engine, the net
adjustment is exactly the sum of the time and size components, and the
adjusted price is exactly the sale price plus those two components, with no
intermediate rounding (all arithmetic is exact). -/
theorem claim_C1_adjusted_price_sum (cfg : AdjustConfig) (r : ProcRow) :
    (adjustComp cfg r).netAdjAmount =
      (adjustComp cfg r).timeAdjAmount + (adjustComp cfg r).sfAdjAmount ∧
    (adjustComp cfg r).adjustedSalePrice =
      r.salePrice + (adjustComp cfg r).timeAdjAmount + (adjustComp cfg r).sfAdjAmount :=
  ⟨rfl, (add_assoc _ _ _).symm⟩

/-- C2: a time adjustment is applied if and only if the absolute days
difference strictly exceeds the threshold: above the threshold the amount is
daily change times days difference and the percentage is monthly change over
30.44 times days difference; at or below the threshold, and in particular at
exact equality, both stay zero. -/
theorem claim_C2_time_threshold (cfg : AdjustConfig) (r : ProcRow) :
    (cfg.timeThresholdDays < |cfg.dov - r.saleDate| →
      (adjustComp cfg r).timeAdjAmount =
        cfg.dailyPriceChange * ((cfg.dov - r.saleDate : ℤ) : ℚ) ∧
      (adjustComp cfg r).timeAdjPct =
        cfg.monthlyTrendPct / (3044/100) * ((cfg.dov - r.saleDate : ℤ) : ℚ)) ∧
    (|cfg.dov - r.saleDate| ≤ cfg.timeThresholdDays →
      (adjustComp cfg r).timeAdjAmount = 0 ∧ (adjustComp cfg r).timeAdjPct = 0) ∧
    (|cfg.dov - r.saleDate| = cfg.timeThresholdDays →
      (adjustComp cfg r).timeAdjAmount = 0 ∧ (adjustComp cfg r).timeAdjPct = 0) := by
  refine ⟨fun h => ?_, fun h => ?_, fun h => ?_⟩
  · constructor <;> simp [adjustComp, h]
  · constructor <;> simp [adjustComp, not_lt.mpr h]
  · constructor <;> simp [adjustComp, not_lt.mpr (le_of_eq h)]

/-- C4: the market-trend rules fire in a fixed order with first match
winning - INCREASING above 0.50 per day, DECREASING below minus 0.50,
UNSTABLE below 0.30 R squared, else STABLE - so a trend with slope above
0.50 and R squared below 0.30 is INCREASING, not UNSTABLE. -/
theorem claim_C4_classifier (d r2 : ℚ) :
    (d > 1/2 → classifyTrend d r2 = "INCREASING") ∧
    (d < -(1/2) → classifyTrend d r2 = "DECREASING") ∧
    (-(1/2) ≤ d → d ≤ 1/2 → r2 < 3/10 → classifyTrend d r2 = "UNSTABLE") ∧
    (-(1/2) ≤ d → d ≤ 1/2 → 3/10 ≤ r2 → classifyTrend d r2 = "STABLE") ∧
    (d > 1/2 → r2 < 3/10 → classifyTrend d r2 = "INCREASING") := by
  refine ⟨fun h => ?_, fun h => ?_, fun h1 h2 h3 => ?_, fun h1 h2 h3 => ?_, fun h _ => ?_⟩
  · unfold classifyTrend
    rw [if_pos h]
  · have hn : ¬ d > 1/2 := not_lt.mpr (le_of_lt (lt_trans h (by norm_num)))
    unfold classifyTrend
    rw [if_neg hn, if_pos h]
  · unfold classifyTrend
    rw [if_neg (not_lt.mpr h2), if_neg (not_lt.mpr h1), if_pos h3]
  · unfold classifyTrend
    rw [if_neg (not_lt.mpr h2), if_neg (not_lt.mpr h1), if_neg (not_lt.mpr h3)]
  · unfold classifyTrend
    rw [if_pos h]

theorem claim_C4_witness :
    (1 : ℚ) > 1/2 ∧ (1/5 : ℚ) < 3/10 ∧ classifyTrend 1 (1/5) = "INCREASING" :=
  ⟨by norm_num, by norm_num,
    (claim_C4_classifier 1 (1/5)).2.2.2.2 (by norm_num) (by norm_num)⟩

/-- C6: degenerate input is a defined terminal state: with zero sales
after the date filter the pipeline output carries the message No sales on
or before date of value, empty period lists and no trend record; with
fewer than two regression points every trend field is zero and the label
is INSUFFICIENT DATA. -/
theorem claim_C6_degenerate (dov : ℤ) (rows : List SaleRow) :
    (processSales dov rows = [] →
      (runPipeline dov rows).message = some "No sales on or before date of value" ∧
      (runPipeline dov rows).validPeriods = [] ∧
      (runPipeline dov rows).omittedPeriods = [] ∧
      (runPipeline dov rows).trend = none) ∧
    (∀ tdf : List ProcRow, tdf.length < 2 →
      computeTrend tdf =
        { slopePrice := 0, interceptPrice := 0, dailyPriceChange := 0,
          monthlyPriceChangePct := 0, slopePricesf := 0, rSquared := 0,
          marketTrend := "INSUFFICIENT DATA" }) := by
  constructor
  · intro h
    refine ⟨?_, ?_, ?_, ?_⟩ <;> simp [runPipeline, h]
  · intro tdf h
    simp [computeTrend, h]

theorem claim_C6_witness :
    processSales 0 [{ saleDate := some 5, salePrice := 1, livingArea := some 1 }] = [] ∧
    (runPipeline 0 [{ saleDate := some 5, salePrice := 1, livingArea := some 1 }]).message =
      some "No sales on or before date of value" ∧
    ([] : List ProcRow).length < 2 ∧
    (computeTrend []).marketTrend = "INSUFFICIENT DATA" := by
  refine ⟨by decide, ?_, by decide, ?_⟩
  · exact ((claim_C6_degenerate 0 _).1 (by decide)).1
  · exact congrArg TrendResults.marketTrend ((claim_C6_degenerate 0 []).2 [] (by decide))

theorem claim_C2_witness :
    (wCfg.timeThresholdDays < |wCfg.dov - wComp60.saleDate| ∧
      (adjustComp wCfg wComp60).timeAdjAmount =
        wCfg.dailyPriceChange * ((wCfg.dov - wComp60.saleDate : ℤ) : ℚ)) ∧
    (|wCfg.dov - wComp5.saleDate| ≤ wCfg.timeThresholdDays ∧
      (adjustComp wCfg wComp5).timeAdjAmount = 0) :=
  ⟨⟨by decide, ((claim_C2_time_threshold wCfg wComp60).1 (by decide)).1⟩,
   ⟨by decide, ((claim_C2_time_threshold wCfg wComp5).2.1 (by decide)).1⟩⟩

/-- For a zero living area the size difference is the full subject area, its
percentage is minus 100, any threshold below 100 is exceeded, and the size
adjustment amount evaluates to subject area times marginal value. -/
theorem sfAdjAmount_zero_area (cfg : AdjustConfig) (r : ProcRow)
    (h : r.livingArea = some 0) (hS : 0 < cfg.subjectLivingArea)
    (hT : cfg.sfThresholdPct < 100) :
    (adjustComp cfg r).sfAdjAmount = cfg.subjectLivingArea * cfg.marginalValuePerSF := by
  have hS0 : cfg.subjectLivingArea ≠ 0 := ne_of_gt hS
  have hpct : (0 - cfg.subjectLivingArea) / cfg.subjectLivingArea * 100 = -100 := by
    field_simp
  have hcond : cfg.sfThresholdPct <
      |(0 - cfg.subjectLivingArea) / cfg.subjectLivingArea * 100| := by
    rw [hpct, abs_neg, abs_of_pos (by norm_num : (0:ℚ) < 100)]
    exact hT
  simp only [adjustComp, h]
  rw [if_pos hcond]
  ring

/-- C7 counterexample: a comparable with living area exactly zero does
not get an undefined or excluded size adjustment - the code computes a
concrete nonzero amount (the minus 100 percent size difference exceeds the
5 percent threshold, yielding 1000 times 100 = 100000). -/
theorem claim_C7_counterexample :
    exZeroAreaRow.livingArea = some 0 ∧
    (adjustComp exAdjCfg exZeroAreaRow).sfAdjAmount = 100000 ∧
    (100000 : ℚ) ≠ 0 := by
  refine ⟨rfl, ?_, by norm_num⟩
  rw [sfAdjAmount_zero_area exAdjCfg exZeroAreaRow rfl (by norm_num [exAdjCfg])
    (by norm_num [exAdjCfg])]
  norm_num [exAdjCfg]

/-- C7 amended: a missing living area leaves the size adjustment at zero
and the price-per-area fields undefined; a zero living area leaves the
price-per-area fields undefined but still receives a computed size
adjustment equal to subject area times marginal value whenever the size
threshold is below 100 percent; in every case the record is retained and
the batch never aborts. -/
theorem claim_C7_amended (cfg : AdjustConfig) (r : ProcRow) :
    (r.livingArea = none →
      (adjustComp cfg r).sfAdjAmount = 0 ∧ (adjustComp cfg r).sfAdjPct = 0 ∧
      (adjustComp cfg r).adjustedPricePerSF = none) ∧
    (r.livingArea = some 0 →
      pricePerArea r.salePrice r.livingArea = none ∧
      (adjustComp cfg r).adjustedPricePerSF = none) ∧
    (r.livingArea = some 0 → 0 < cfg.subjectLivingArea → cfg.sfThresholdPct < 100 →
      (adjustComp cfg r).sfAdjAmount = cfg.subjectLivingArea * cfg.marginalValuePerSF) ∧
    (∀ rows : List ProcRow, (adjustBatch cfg rows).length = rows.length) := by
  refine ⟨fun h => ?_, fun h => ?_, fun h hS hT => ?_, fun rows => ?_⟩
  · refine ⟨?_, ?_, ?_⟩ <;> simp [adjustComp, pricePerArea, h]
  · constructor <;> simp [adjustComp, pricePerArea, h]
  · exact sfAdjAmount_zero_area cfg r h hS hT
  · simp [adjustBatch]

theorem claim_C7_amended_witness :
    (exNoneAreaRow.livingArea = none ∧
      (adjustComp exAdjCfg exNoneAreaRow).sfAdjAmount = 0 ∧
      (adjustComp exAdjCfg exNoneAreaRow).sfAdjPct = 0 ∧
      (adjustComp exAdjCfg exNoneAreaRow).adjustedPricePerSF = none) ∧
    (exZeroAreaRow.livingArea = some 0 ∧ 0 < exAdjCfg.subjectLivingArea ∧
      exAdjCfg.sfThresholdPct < 100 ∧
      (adjustComp exAdjCfg exZeroAreaRow).sfAdjAmount =
        exAdjCfg.subjectLivingArea * exAdjCfg.marginalValuePerSF) :=
  ⟨⟨rfl, (claim_C7_amended exAdjCfg exNoneAreaRow).1 rfl⟩,
   ⟨rfl, by norm_num [exAdjCfg], by norm_num [exAdjCfg],
    (claim_C7_amended exAdjCfg exZeroAreaRow).2.2.1 rfl (by norm_num [exAdjCfg])
      (by norm_num [exAdjCfg])⟩⟩

/-- Unpacking of a successful keep-and-enrich step: the source row parsed,
its date is in range, and every derived field follows the formulas. -/
theorem keepEnrich_eq_some {dov : ℤ} {s : SaleRow} {r : ProcRow}
    (h : keepEnrich dov s = some r) :
    s.saleDate = some r.saleDate ∧ r.saleDate ≤ dov ∧
    r.salePrice = s.salePrice ∧ r.livingArea = s.livingArea ∧
    r.pricePerSF = pricePerArea r.salePrice r.livingArea ∧
    r.daysFromDOV = dov - r.saleDate := by
  cases hsd : s.saleDate with
  | none => rw [keepEnrich, hsd] at h; exact absurd h (by simp)
  | some d =>
    rw [keepEnrich, hsd] at h
    simp only [] at h
    by_cases hle : d ≤ dov
    · rw [if_pos hle] at h
      have h2 := Option.some.inj h
      subst h2
      exact ⟨rfl, hle, rfl, rfl, rfl, rfl⟩
    · rw [if_neg hle] at h
      exact absurd h (by simp)

/-- C5: every row of the processed sales table has a sale date at or
before the date of value, the table is sorted ascending by sale date, and
every retained row carries the derived days-from-value and price-per-area
fields computed by the loader, originating from some input row. -/
theorem claim_C5_processed_table (dov : ℤ) (rows : List SaleRow) :
    List.Sorted rowLE (processSales dov rows) ∧
    List.Perm (processSales dov rows) (rows.filterMap (keepEnrich dov)) ∧
    ∀ r ∈ processSales dov rows,
      r.saleDate ≤ dov ∧ r.daysFromDOV = dov - r.saleDate ∧
      r.pricePerSF = pricePerArea r.salePrice r.livingArea ∧
      ∃ s ∈ rows, s.saleDate = some r.saleDate ∧ r.salePrice = s.salePrice ∧
        r.livingArea = s.livingArea := by
  refine ⟨List.sorted_insertionSort rowLE _, List.perm_insertionSort rowLE _, ?_⟩
  intro r hr
  rw [processSales, List.mem_insertionSort] at hr
  rcases List.mem_filterMap.mp hr with ⟨s, hs, hks⟩
  rcases keepEnrich_eq_some hks with ⟨h1, h2, h3, h4, h5, h6⟩
  exact ⟨h2, h6, h5, s, hs, h1, h3, h4⟩

theorem claim_C5_witness :
    exProcW ∈ processSales 100 exRowsGood ∧
    (exProcW.saleDate ≤ 100 ∧
     exProcW.daysFromDOV = 100 - exProcW.saleDate ∧
     exProcW.pricePerSF = pricePerArea exProcW.salePrice exProcW.livingArea ∧
     ∃ s ∈ exRowsGood,
       s.saleDate = some exProcW.saleDate ∧ exProcW.salePrice = s.salePrice ∧
         exProcW.livingArea = s.livingArea) :=
  ⟨by with_unfolding_all decide,
   (claim_C5_processed_table 100 exRowsGood).2.2 _ (by with_unfolding_all decide)⟩

/-- C8 counterexample: a header set that resolves exactly price, date
and living area still fails the required-columns check, so the pipeline
stops with a hard error instead of proceeding. -/
theorem claim_C8_counterexample :
    mapColumns exThreeHeaders = ["Sale_Price", "Sale_Date", "Living_Area"] ∧
    missingFinal exThreeHeaders ≠ [] := by
  constructor
  · decide
  · decide

/-- C8 amended: all ten canonical columns of required_final are hard
required - the pipeline proceeds exactly when every one of them resolves;
the three-field header set leaves seven required columns missing, while a
full ten-field header set passes. -/
theorem claim_C8_amended (cols : List String) :
    (missingFinal cols = [] ↔ ∀ c ∈ requiredFinal, c ∈ mapColumns cols) ∧
    missingFinal exThreeHeaders =
      ["Bedrooms", "Bathrooms", "Street_Number", "Street_Name", "DOM", "CDOM", "Garage"] ∧
    missingFinal exTenHeaders = [] := by
  refine ⟨?_, by decide, by decide⟩
  unfold missingFinal
  rw [List.filter_eq_nil_iff]
  constructor
  · intro h c hc
    have h2 := h c hc
    simp at h2
    exact h2
  · intro h c hc
    simp [h c hc]

theorem claim_C8_amended_witness :
    missingFinal exTenHeaders = [] ∧ "Garage" ∈ mapColumns exTenHeaders :=
  ⟨(claim_C8_amended exTenHeaders).2.2,
   (claim_C8_amended exTenHeaders).1.mp (claim_C8_amended exTenHeaders).2.2
     "Garage" (by decide)⟩
/-- Appending rows whose dates failed to parse leaves the processed set
unchanged: the filter drops every one of them. -/
theorem processSales_append_unparseable (dov : ℤ) (rows extra : List SaleRow)
    (hx : ∀ e ∈ extra, e.saleDate = none) :
    processSales dov (rows ++ extra) = processSales dov rows := by
  unfold processSales
  rw [List.filterMap_append]
  have h0 : List.filterMap (keepEnrich dov) extra = [] :=
    List.filterMap_eq_nil_iff.mpr (fun e he => by rw [keepEnrich, hx e he])
  rw [h0, List.append_nil]

/-- The whole observable pipeline output is a function of the processed
set, so unparseable-date rows leave it untouched. -/
theorem runPipeline_append_unparseable (dov : ℤ) (rows extra : List SaleRow)
    (hx : ∀ e ∈ extra, e.saleDate = none) :
    runPipeline dov (rows ++ extra) = runPipeline dov rows := by
  unfold runPipeline
  rw [processSales_append_unparseable dov rows extra hx]

/-- C9 counterexample: the pipeline output is identical whether or not
unparseable-date rows were present, so no aggregate count of dropped rows
is surfaced anywhere in the output - the drop is silent. -/
theorem claim_C9_counterexample :
    runPipeline 100 exRowsBad = runPipeline 100 exRowsGood ∧
    droppedUnparseable exRowsGood = 0 ∧ droppedUnparseable exRowsBad = 2 :=
  ⟨runPipeline_append_unparseable 100 exRowsGood _ (by decide), by decide, by decide⟩

/-- C9 amended: rows with unparseable dates are dropped from the
processed set, but the drop is not reported: the entire observable output
is unchanged by their presence, and only the retained rows are counted. -/
theorem claim_C9_amended (dov : ℤ) (rows extra : List SaleRow)
    (hx : ∀ e ∈ extra, e.saleDate = none) :
    runPipeline dov (rows ++ extra) = runPipeline dov rows ∧
    droppedUnparseable (rows ++ extra) = droppedUnparseable rows + extra.length := by
  refine ⟨runPipeline_append_unparseable dov rows extra hx, ?_⟩
  unfold droppedUnparseable
  rw [List.filter_append, List.length_append]
  have h0 : extra.filter (fun r => decide (r.saleDate = none)) = extra :=
    List.filter_eq_self.mpr (fun e he => by simp [hx e he])
  rw [h0]

theorem claim_C9_witness :
    (∀ e ∈ exRowsOneBad, e.saleDate = none) ∧
    runPipeline 50 (exRowsGood ++ exRowsOneBad) = runPipeline 50 exRowsGood ∧
    droppedUnparseable (exRowsGood ++ exRowsOneBad) =
      droppedUnparseable exRowsGood + exRowsOneBad.length :=
  ⟨by decide, claim_C9_amended 50 exRowsGood exRowsOneBad (by decide)⟩

/-- The coverage reason is never the empty string. -/
theorem coverageReason_ne : coverageReason ≠ "" := by decide

/-- A duplicate-count reason is never the empty string. -/
theorem duplicateReason_ne (p : String) : duplicateReason p ≠ "" := by
  intro h
  have h2 := congrArg String.data h
  rw [duplicateReason, String.data_append] at h2
  simp at h2

/-- Each loop iteration either omits the candidate (appending one omitted
record carrying its key, a nonempty reason and its sale count) or accepts
it (appending one valid record carrying its key, count and cutoff). -/
theorem validateStep_cases (dov : ℤ) (covM : ℚ) (dates : List ℤ)
    (v0 : List ValidPeriod) (o0 : List OmittedPeriod) (c : String × ℕ) :
    (∃ b : OmittedPeriod,
      validateStep dov covM dates (v0, o0) c = (v0, o0 ++ [b]) ∧
      opKey b = c ∧ b.reason ≠ "" ∧ b.salesCount = periodCount dov c.2 dates) ∨
    (∃ a : ValidPeriod,
      validateStep dov covM dates (v0, o0) c = (v0 ++ [a], o0) ∧
      vpKey a = c ∧ a.salesCount = periodCount dov c.2 dates ∧
      a.cutoffDate = periodCutoff dov c.2) := by
  by_cases hcov : (c.2 : ℚ) > covM + 1
  · exact Or.inl ⟨⟨c.1, c.2, coverageReason, periodCount dov c.2 dates⟩,
      by simp [validateStep, hcov], rfl, coverageReason_ne, rfl⟩
  · cases hlast : v0.getLast? with
    | none =>
        exact Or.inr ⟨⟨c.1, c.2, periodCount dov c.2 dates, periodCutoff dov c.2⟩,
          by simp [validateStep, hcov, hlast], rfl, rfl, rfl⟩
    | some lastV =>
        by_cases hdup : periodCount dov c.2 dates = lastV.salesCount
        · exact Or.inl ⟨⟨c.1, c.2, duplicateReason lastV.name, periodCount dov c.2 dates⟩,
            by simp [validateStep, hcov, hlast, hdup], rfl,
            duplicateReason_ne lastV.name, rfl⟩
        · exact Or.inr ⟨⟨c.1, c.2, periodCount dov c.2 dates, periodCutoff dov c.2⟩,
            by simp [validateStep, hcov, hlast, hdup], rfl, rfl, rfl⟩

/-- Shape of the validation fold: it only ever appends, the appended valid
and omitted segments are order-preserving sublists of the candidate list,
together they use up every candidate exactly once, accepted records carry
the computed count and cutoff, and omitted records carry a nonempty reason
and the computed count. -/
theorem validate_foldl_shape (dov : ℤ) (covM : ℚ) (dates : List ℤ) :
    ∀ (cands : List (String × ℕ)) (v0 : List ValidPeriod) (o0 : List OmittedPeriod),
      ∃ dv dw,
        cands.foldl (validateStep dov covM dates) (v0, o0) = (v0 ++ dv, o0 ++ dw) ∧
        (dv.map vpKey).Sublist cands ∧
        (dw.map opKey).Sublist cands ∧
        (dv.map vpKey ++ dw.map opKey).Perm cands ∧
        (∀ x ∈ dv, x.salesCount = periodCount dov x.months dates ∧
          x.cutoffDate = periodCutoff dov x.months) ∧
        (∀ x ∈ dw, x.reason ≠ "" ∧ x.salesCount = periodCount dov x.months dates) := by
  intro cands
  induction cands with
  | nil =>
      intro v0 o0
      exact ⟨[], [], by simp, by simp, by simp, by simp, by simp, by simp⟩
  | cons c cs ih =>
      intro v0 o0
      rcases validateStep_cases dov covM dates v0 o0 c with
        ⟨b, hf, hkey, hre, hcnt⟩ | ⟨a, hf, hkey, hcnt, hcut⟩
      · rcases ih v0 (o0 ++ [b]) with ⟨dv, dw, h1, h2, h3, h4, h5, h6⟩
        refine ⟨dv, b :: dw, ?_, ?_, ?_, ?_, h5, ?_⟩
        · rw [List.foldl_cons, hf, h1, List.append_assoc]
          rfl
        · exact h2.cons c
        · show (opKey b :: dw.map opKey).Sublist (c :: cs)
          rw [hkey]
          exact h3.cons₂ c
        · show (dv.map vpKey ++ opKey b :: dw.map opKey).Perm (c :: cs)
          rw [hkey]
          exact List.perm_middle.trans (h4.cons c)
        · intro x hx
          rcases List.mem_cons.mp hx with rfl | hx2
          · have hm : x.months = c.2 := congrArg Prod.snd hkey
            exact ⟨hre, by rw [hcnt, hm]⟩
          · exact h6 x hx2
      · rcases ih (v0 ++ [a]) o0 with ⟨dv, dw, h1, h2, h3, h4, h5, h6⟩
        refine ⟨a :: dv, dw, ?_, ?_, ?_, ?_, ?_, h6⟩
        · rw [List.foldl_cons, hf, h1, List.append_assoc]
          rfl
        · show (vpKey a :: dv.map vpKey).Sublist (c :: cs)
          rw [hkey]
          exact h2.cons₂ c
        · exact h3.cons c
        · show ((vpKey a :: dv.map vpKey) ++ dw.map opKey).Perm (c :: cs)
          rw [hkey]
          exact (h4.cons c)
        · intro x hx
          rcases List.mem_cons.mp hx with rfl | hx2
          · have hm : x.months = c.2 := congrArg Prod.snd hkey
            exact ⟨by rw [hcnt, hm], by rw [hcut, hm]⟩
          · exact h5 x hx2

/-- C10: the period validator places each of the nine ladder candidates
in exactly one of the two output lists - the keys of the valid and omitted
lists are order-preserving sublists of the ladder whose concatenation is a
permutation of it - and every omitted record carries a nonempty reason and
the sale count computed for its window. -/
theorem claim_C10_partition (dov : ℤ) (covM : ℚ) (dates : List ℤ) :
    ((validatePeriods dov covM dates).1.map vpKey).Sublist ladderPeriods ∧
    ((validatePeriods dov covM dates).2.map opKey).Sublist ladderPeriods ∧
    ((validatePeriods dov covM dates).1.map vpKey ++
      (validatePeriods dov covM dates).2.map opKey).Perm ladderPeriods ∧
    ∀ x ∈ (validatePeriods dov covM dates).2,
      x.reason ≠ "" ∧ x.salesCount = periodCount dov x.months dates := by
  rcases validate_foldl_shape dov covM dates ladderPeriods [] [] with
    ⟨dv, dw, h1, h2, h3, h4, h5, h6⟩
  have h0 : validatePeriods dov covM dates = (dv, dw) := by
    rw [validatePeriods, h1]
    simp
  rw [h0]
  exact ⟨h2, h3, h4, h6⟩

set_option maxRecDepth 8000 in
theorem claim_C10_witness :
    (⟨"0-18 months", 18, coverageReason, 7⟩ : OmittedPeriod) ∈
      (validatePeriods 1000 exCovM exDates).2 ∧
    coverageReason ≠ "" ∧
    (7 : ℕ) = periodCount 1000 18 exDates :=
  have h := (claim_C10_partition 1000 exCovM exDates).2.2.2
    ⟨"0-18 months", 18, coverageReason, 7⟩ (by with_unfolding_all decide)
  ⟨by with_unfolding_all decide, h.1, h.2⟩

set_option maxRecDepth 8000 in
/-- C3: each candidate period is first omitted when its month count
exceeds coverage plus the one-month buffer (regardless of any duplicate
count), otherwise omitted when its sale count equals the most recently
accepted count, otherwise accepted; concretely, on the example data 0-6
months is accepted with count 5 even though the earlier omitted 7-9 months
had the same count 5, because it differs from the last accepted count. -/
theorem claim_C3_period_validation :
    (∀ (dov : ℤ) (covM : ℚ) (dates : List ℤ) (v : List ValidPeriod)
        (o : List OmittedPeriod) (nm : String) (m : ℕ),
        (m : ℚ) > covM + 1 →
        validateStep dov covM dates (v, o) (nm, m) =
          (v, o ++ [⟨nm, m, coverageReason, periodCount dov m dates⟩])) ∧
    (∀ (dov : ℤ) (covM : ℚ) (dates : List ℤ) (v : List ValidPeriod)
        (o : List OmittedPeriod) (nm : String) (m : ℕ) (lastV : ValidPeriod),
        ¬((m : ℚ) > covM + 1) → v.getLast? = some lastV →
        periodCount dov m dates = lastV.salesCount →
        validateStep dov covM dates (v, o) (nm, m) =
          (v, o ++ [⟨nm, m, duplicateReason lastV.name, periodCount dov m dates⟩])) ∧
    (∀ (dov : ℤ) (covM : ℚ) (dates : List ℤ) (v : List ValidPeriod)
        (o : List OmittedPeriod) (nm : String) (m : ℕ),
        ¬((m : ℚ) > covM + 1) →
        (v.getLast? = none ∨
          ∃ lastV, v.getLast? = some lastV ∧ periodCount dov m dates ≠ lastV.salesCount) →
        validateStep dov covM dates (v, o) (nm, m) =
          (v ++ [⟨nm, m, periodCount dov m dates, periodCutoff dov m⟩], o)) ∧
    ((⟨"4-6 months", 6, 5, 818⟩ : ValidPeriod) ∈ (validatePeriods 1000 exCovM exDates).1 ∧
     (⟨"7-9 months", 9, duplicateReason "4-6 months", 5⟩ : OmittedPeriod) ∈
       (validatePeriods 1000 exCovM exDates).2 ∧
     (⟨"0-6 months", 6, 5, 818⟩ : ValidPeriod) ∈ (validatePeriods 1000 exCovM exDates).1) := by
  refine ⟨?_, ?_, ?_, ?_, ?_, ?_⟩
  · intro dov covM dates v o nm m h
    simp [validateStep, h]
  · intro dov covM dates v o nm m lastV h1 h2 h3
    simp [validateStep, h1, h2, h3]
  · intro dov covM dates v o nm m h1 h2
    rcases h2 with h2 | ⟨lastV, h2, h3⟩
    · simp [validateStep, h1, h2]
    · simp [validateStep, h1, h2, h3]
  · with_unfolding_all decide
  · with_unfolding_all decide
  · with_unfolding_all decide

set_option maxRecDepth 8000 in
theorem claim_C3_witness :
    ((36 : ℕ) : ℚ) > exCovM + 1 ∧
    validateStep 1000 exCovM exDates ([], []) ("0-36 months", 36) =
      ([], [⟨"0-36 months", 36, coverageReason, periodCount 1000 36 exDates⟩]) :=
  ⟨by with_unfolding_all decide,
   claim_C3_period_validation.1 1000 exCovM exDates [] [] "0-36 months" 36
     (by with_unfolding_all decide)⟩

end Appraisal
